import Mathlib

/-!
Verification of the metering core of `vu-meter-react`.

The definitions below are a shallow embedding of the metering pipeline
implemented in `src/VUMeter.tsx` (the `animate` callback and the
`VUBallistics` class).  JavaScript floating-point arithmetic is modelled
over the real numbers; sample windows are lists of reals; the mutable
per-session references (`lastTimeRef`, `lastClipTimeMsRef`, the ballistics
`level` field) are passed as explicit state.
-/

noncomputable section

namespace VUMeterReact

/-- Channel mode of a meter instance (the `channel` prop: "left" | "right" | "mono"). -/
inductive Channel
| left
| right
| mono
deriving DecidableEq

/-- Sum of squared samples: the `sumOfSquares` accumulation loop over `dataArray`. -/
def sumOfSquares (dataArray : List ℝ) : ℝ :=
  (dataArray.map fun s => s * s).sum

/-- Root mean square of the window: `Math.sqrt(sumOfSquares / bufferLength)`. -/
def rms (dataArray : List ℝ) : ℝ :=
  Real.sqrt (sumOfSquares dataArray / dataArray.length)

/-- `20 * Math.log10(Math.max(rms, 0.00001))`: dBFS level with the 1e-5 floor,
before any channel correction. -/
def dbFS (dataArray : List ℝ) : ℝ :=
  20 * Real.logb 10 (max (rms dataArray) 0.00001)

/-- The `+3.8` dB correction applied when `channel === "mono" &&
sourceChannelsRef.current === 2`, and `0` otherwise. -/
def monoCorrection (channel : Channel) (sourceChannels : ℕ) : ℝ :=
  if channel = Channel.mono ∧ sourceChannels = 2 then 3.8 else 0

/-- The corrected level estimate: `dbFS` after the conditional `dbFS += 3.8`. -/
def estimate (dataArray : List ℝ) (channel : Channel) (sourceChannels : ℕ) : ℝ :=
  dbFS dataArray + monoCorrection channel sourceChannels

/-- The piecewise `vuValue`-to-angle ladder from `animate`, including the outer
clamps (`vuValue <= -20 → -25`, `vuValue >= 3 → 25`) and the inner ladder with
its duplicated `vuValue <= -20` branch, exactly as in the source. -/
def toAngle (vuValue : ℝ) : ℝ :=
  if vuValue ≤ -20 then -25
  else if vuValue ≥ 3 then 25
  else
    if vuValue ≤ -20 then -23
    else if vuValue ≤ -10 then -23 + ((vuValue + 20) / 10) * 7
    else if vuValue ≤ -7 then -16 + ((vuValue + 10) / 3) * 4
    else if vuValue ≤ -5 then -12 + ((vuValue + 7) / 2) * 4
    else if vuValue ≤ -3 then -8 + ((vuValue + 5) / 2) * 5
    else if vuValue ≤ -2 then -3 + ((vuValue + 3) / 1) * 3
    else if vuValue ≤ -1 then 0 + ((vuValue + 2) / 1) * 3.5
    else if vuValue ≤ 0 then 3.5 + ((vuValue + 1) / 1) * 4.5
    else if vuValue ≤ 1 then 8 + (vuValue / 1) * 5
    else if vuValue ≤ 2 then 13 + ((vuValue - 1) / 1) * 5
    else if vuValue ≤ 3 then 18 + ((vuValue - 2) / 1) * 7
    else 25

namespace VUBallistics

/-- `private attackTime: number = 0.3` — 300 ms rise time. -/
def attackTime : ℝ := 0.3

/-- `private releaseTime: number = 0.3` — 300 ms fall time. -/
def releaseTime : ℝ := 0.3

/-- `private level: number = 0` — the initial smoothed level of a fresh
`VUBallistics` instance. -/
def initialLevel : ℝ := 0

/-- `VUBallistics.process(inputLevel, deltaTime)`: the state field `level` is
made explicit as the first argument; the result is the new (and returned)
`level`. -/
def process (level inputLevel deltaTime : ℝ) : ℝ :=
  let attackCoeff := 1 - Real.exp (-deltaTime / attackTime)
  let releaseCoeff := 1 - Real.exp (-deltaTime / releaseTime)
  if inputLevel > level then level + (inputLevel - level) * attackCoeff
  else level + (inputLevel - level) * releaseCoeff

end VUBallistics

/-- `const normalizedLevel = (angle + 25) / 50`. -/
def normalizedLevel (angle : ℝ) : ℝ := (angle + 25) / 50

/-- `const directRotation = smoothedLevel * 50 - 25`. -/
def directRotation (smoothedLevel : ℝ) : ℝ := smoothedLevel * 50 - 25

/-- The `deltaTime` computation at the top of `animate`: `lastTimeRef.current`
starts at `0` and is treated as "unset" while falsy, in which case it is first
set to `currentTime`; then `deltaTime = (currentTime - lastTimeRef.current) / 1000`. -/
def tickDelta (lastTimeMs currentTime : ℝ) : ℝ :=
  let last := if lastTimeMs = 0 then currentTime else lastTimeMs
  (currentTime - last) / 1000

/-- Clip detection: `if (directRotation >= clipThresholdDeg) lastClipTimeMsRef.current = currentTime`. -/
def updateLastClip (angleDeg clipThresholdDeg currentTime : ℝ)
    (lastClipTimeMs : Option ℝ) : Option ℝ :=
  if angleDeg ≥ clipThresholdDeg then some currentTime else lastClipTimeMs

/-- Peak-lamp intensity computed each tick: `0` when `lastClipTimeMsRef` is
still `null`; `1` during the hold period; otherwise the linear fade
`1 - Math.min(1, (msSinceLastClip - peakHoldMs) / peakFadeMs)`. -/
def peakIntensity (lastClipTimeMs : Option ℝ) (currentTime peakHoldMs peakFadeMs : ℝ) : ℝ :=
  match lastClipTimeMs with
  | none => 0
  | some tc =>
    let msSinceLastClip := currentTime - tc
    if msSinceLastClip ≤ peakHoldMs then 1
    else 1 - min 1 ((msSinceLastClip - peakHoldMs) / peakFadeMs)

/-- The snap-off emission: `intensity <= 0.001` yields `(peakLampActive, peakLampIntensity)
= (false, 0)`, otherwise `(true, intensity)`. -/
def emitPeak (intensity : ℝ) : Bool × ℝ :=
  if intensity ≤ 0.001 then (false, 0) else (true, intensity)

/-- Default `peakHoldMs` (`options.peakHoldMs ?? 1000`). -/
def peakHoldMsDefault : ℝ := 1000

/-- Default `peakFadeMs` (`options.peakFadeMs ?? 5000`). -/
def peakFadeMsDefault : ℝ := 5000

/-- Default `clipThresholdDeg` (`options.clipThresholdDeg ?? 23`). -/
def clipThresholdDegDefault : ℝ := 23

/-! ### Region lemmas for the piecewise ladder -/

lemma toAngle_floor {v : ℝ} (h : v ≤ -20) : toAngle v = -25 := by
  unfold toAngle
  rw [if_pos h]

lemma toAngle_ceil {v : ℝ} (h : 3 ≤ v) : toAngle v = 25 := by
  unfold toAngle
  rw [if_neg (by linarith : ¬ v ≤ -20), if_pos (by linarith : v ≥ 3)]

lemma toAngle_seg1 {v : ℝ} (h1 : -20 < v) (h2 : v ≤ -10) :
    toAngle v = -23 + ((v + 20) / 10) * 7 := by
  unfold toAngle
  rw [if_neg (by linarith : ¬ v ≤ -20), if_neg (by linarith : ¬ v ≥ 3),
    if_neg (by linarith : ¬ v ≤ -20), if_pos h2]

lemma toAngle_seg2 {v : ℝ} (h1 : -10 < v) (h2 : v ≤ -7) :
    toAngle v = -16 + ((v + 10) / 3) * 4 := by
  unfold toAngle
  rw [if_neg (by linarith : ¬ v ≤ -20), if_neg (by linarith : ¬ v ≥ 3),
    if_neg (by linarith : ¬ v ≤ -20), if_neg (by linarith : ¬ v ≤ -10), if_pos h2]

lemma toAngle_seg3 {v : ℝ} (h1 : -7 < v) (h2 : v ≤ -5) :
    toAngle v = -12 + ((v + 7) / 2) * 4 := by
  unfold toAngle
  rw [if_neg (by linarith : ¬ v ≤ -20), if_neg (by linarith : ¬ v ≥ 3),
    if_neg (by linarith : ¬ v ≤ -20), if_neg (by linarith : ¬ v ≤ -10),
    if_neg (by linarith : ¬ v ≤ -7), if_pos h2]

lemma toAngle_seg4 {v : ℝ} (h1 : -5 < v) (h2 : v ≤ -3) :
    toAngle v = -8 + ((v + 5) / 2) * 5 := by
  unfold toAngle
  rw [if_neg (by linarith : ¬ v ≤ -20), if_neg (by linarith : ¬ v ≥ 3),
    if_neg (by linarith : ¬ v ≤ -20), if_neg (by linarith : ¬ v ≤ -10),
    if_neg (by linarith : ¬ v ≤ -7), if_neg (by linarith : ¬ v ≤ -5), if_pos h2]

lemma toAngle_seg5 {v : ℝ} (h1 : -3 < v) (h2 : v ≤ -2) :
    toAngle v = -3 + ((v + 3) / 1) * 3 := by
  unfold toAngle
  rw [if_neg (by linarith : ¬ v ≤ -20), if_neg (by linarith : ¬ v ≥ 3),
    if_neg (by linarith : ¬ v ≤ -20), if_neg (by linarith : ¬ v ≤ -10),
    if_neg (by linarith : ¬ v ≤ -7), if_neg (by linarith : ¬ v ≤ -5),
    if_neg (by linarith : ¬ v ≤ -3), if_pos h2]

lemma toAngle_seg6 {v : ℝ} (h1 : -2 < v) (h2 : v ≤ -1) :
    toAngle v = 0 + ((v + 2) / 1) * 3.5 := by
  unfold toAngle
  rw [if_neg (by linarith : ¬ v ≤ -20), if_neg (by linarith : ¬ v ≥ 3),
    if_neg (by linarith : ¬ v ≤ -20), if_neg (by linarith : ¬ v ≤ -10),
    if_neg (by linarith : ¬ v ≤ -7), if_neg (by linarith : ¬ v ≤ -5),
    if_neg (by linarith : ¬ v ≤ -3), if_neg (by linarith : ¬ v ≤ -2), if_pos h2]

lemma toAngle_seg7 {v : ℝ} (h1 : -1 < v) (h2 : v ≤ 0) :
    toAngle v = 3.5 + ((v + 1) / 1) * 4.5 := by
  unfold toAngle
  rw [if_neg (by linarith : ¬ v ≤ -20), if_neg (by linarith : ¬ v ≥ 3),
    if_neg (by linarith : ¬ v ≤ -20), if_neg (by linarith : ¬ v ≤ -10),
    if_neg (by linarith : ¬ v ≤ -7), if_neg (by linarith : ¬ v ≤ -5),
    if_neg (by linarith : ¬ v ≤ -3), if_neg (by linarith : ¬ v ≤ -2),
    if_neg (by linarith : ¬ v ≤ -1), if_pos h2]

lemma toAngle_seg8 {v : ℝ} (h1 : 0 < v) (h2 : v ≤ 1) :
    toAngle v = 8 + (v / 1) * 5 := by
  unfold toAngle
  rw [if_neg (by linarith : ¬ v ≤ -20), if_neg (by linarith : ¬ v ≥ 3),
    if_neg (by linarith : ¬ v ≤ -20), if_neg (by linarith : ¬ v ≤ -10),
    if_neg (by linarith : ¬ v ≤ -7), if_neg (by linarith : ¬ v ≤ -5),
    if_neg (by linarith : ¬ v ≤ -3), if_neg (by linarith : ¬ v ≤ -2),
    if_neg (by linarith : ¬ v ≤ -1), if_neg (by linarith : ¬ v ≤ 0), if_pos h2]

lemma toAngle_seg9 {v : ℝ} (h1 : 1 < v) (h2 : v ≤ 2) :
    toAngle v = 13 + ((v - 1) / 1) * 5 := by
  unfold toAngle
  rw [if_neg (by linarith : ¬ v ≤ -20), if_neg (by linarith : ¬ v ≥ 3),
    if_neg (by linarith : ¬ v ≤ -20), if_neg (by linarith : ¬ v ≤ -10),
    if_neg (by linarith : ¬ v ≤ -7), if_neg (by linarith : ¬ v ≤ -5),
    if_neg (by linarith : ¬ v ≤ -3), if_neg (by linarith : ¬ v ≤ -2),
    if_neg (by linarith : ¬ v ≤ -1), if_neg (by linarith : ¬ v ≤ 0),
    if_neg (by linarith : ¬ v ≤ 1), if_pos h2]

lemma toAngle_seg10 {v : ℝ} (h1 : 2 < v) (h2 : v < 3) :
    toAngle v = 18 + ((v - 2) / 1) * 7 := by
  unfold toAngle
  rw [if_neg (by linarith : ¬ v ≤ -20), if_neg (by linarith : ¬ v ≥ 3),
    if_neg (by linarith : ¬ v ≤ -20), if_neg (by linarith : ¬ v ≤ -10),
    if_neg (by linarith : ¬ v ≤ -7), if_neg (by linarith : ¬ v ≤ -5),
    if_neg (by linarith : ¬ v ≤ -3), if_neg (by linarith : ¬ v ≤ -2),
    if_neg (by linarith : ¬ v ≤ -1), if_neg (by linarith : ¬ v ≤ 0),
    if_neg (by linarith : ¬ v ≤ 1), if_neg (by linarith : ¬ v ≤ 2),
    if_pos (by linarith : v ≤ 3)]

/-- The ladder output always lies in the dial range. -/
lemma toAngle_bounds (v : ℝ) : -25 ≤ toAngle v ∧ toAngle v ≤ 25 := by
  rcases le_or_lt v (-20) with h1 | h1
  · rw [toAngle_floor h1]; norm_num
  rcases le_or_lt 3 v with h2 | h2
  · rw [toAngle_ceil h2]; norm_num
  rcases le_or_lt v (-10) with h3 | h3
  · rw [toAngle_seg1 h1 h3]; constructor <;> linarith
  rcases le_or_lt v (-7) with h4 | h4
  · rw [toAngle_seg2 h3 h4]; constructor <;> linarith
  rcases le_or_lt v (-5) with h5 | h5
  · rw [toAngle_seg3 h4 h5]; constructor <;> linarith
  rcases le_or_lt v (-3) with h6 | h6
  · rw [toAngle_seg4 h5 h6]; constructor <;> linarith
  rcases le_or_lt v (-2) with h7 | h7
  · rw [toAngle_seg5 h6 h7]; constructor <;> linarith
  rcases le_or_lt v (-1) with h8 | h8
  · rw [toAngle_seg6 h7 h8]; constructor <;> linarith
  rcases le_or_lt v 0 with h9 | h9
  · rw [toAngle_seg7 h8 h9]; constructor <;> linarith
  rcases le_or_lt v 1 with h10 | h10
  · rw [toAngle_seg8 h9 h10]; constructor <;> linarith
  rcases le_or_lt v 2 with h11 | h11
  · rw [toAngle_seg9 h10 h11]; constructor <;> linarith
  rw [toAngle_seg10 h11 h2]; constructor <;> linarith

/-- Lower bounds for the ladder past each interior breakpoint. -/
lemma toAngle_ge_18 {v : ℝ} (h1 : 2 < v) (h2 : v < 3) : 18 ≤ toAngle v := by
  rw [toAngle_seg10 h1 h2]; linarith

lemma toAngle_ge_13 {v : ℝ} (h1 : 1 < v) (h2 : v < 3) : 13 ≤ toAngle v := by
  rcases le_or_lt v 2 with h | h
  · rw [toAngle_seg9 h1 h]; linarith
  · linarith [toAngle_ge_18 h h2]

lemma toAngle_ge_8 {v : ℝ} (h1 : 0 < v) (h2 : v < 3) : 8 ≤ toAngle v := by
  rcases le_or_lt v 1 with h | h
  · rw [toAngle_seg8 h1 h]; linarith
  · linarith [toAngle_ge_13 h h2]

lemma toAngle_ge_35 {v : ℝ} (h1 : -1 < v) (h2 : v < 3) : 3.5 ≤ toAngle v := by
  rcases le_or_lt v 0 with h | h
  · rw [toAngle_seg7 h1 h]; linarith
  · linarith [toAngle_ge_8 h h2]

lemma toAngle_ge_0 {v : ℝ} (h1 : -2 < v) (h2 : v < 3) : 0 ≤ toAngle v := by
  rcases le_or_lt v (-1) with h | h
  · rw [toAngle_seg6 h1 h]; linarith
  · have := toAngle_ge_35 h h2; linarith

lemma toAngle_ge_neg3 {v : ℝ} (h1 : -3 < v) (h2 : v < 3) : -3 ≤ toAngle v := by
  rcases le_or_lt v (-2) with h | h
  · rw [toAngle_seg5 h1 h]; linarith
  · linarith [toAngle_ge_0 h h2]

lemma toAngle_ge_neg8 {v : ℝ} (h1 : -5 < v) (h2 : v < 3) : -8 ≤ toAngle v := by
  rcases le_or_lt v (-3) with h | h
  · rw [toAngle_seg4 h1 h]; linarith
  · linarith [toAngle_ge_neg3 h h2]

lemma toAngle_ge_neg12 {v : ℝ} (h1 : -7 < v) (h2 : v < 3) : -12 ≤ toAngle v := by
  rcases le_or_lt v (-5) with h | h
  · rw [toAngle_seg3 h1 h]; linarith
  · linarith [toAngle_ge_neg8 h h2]

lemma toAngle_ge_neg16 {v : ℝ} (h1 : -10 < v) (h2 : v < 3) : -16 ≤ toAngle v := by
  rcases le_or_lt v (-7) with h | h
  · rw [toAngle_seg2 h1 h]; linarith
  · linarith [toAngle_ge_neg12 h h2]

/-- Monotonicity of the ladder inside the non-clamped region. -/
lemma toAngle_ladder_mono {u v : ℝ} (hu : -20 < u) (huv : u ≤ v) (hv : v < 3) :
    toAngle u ≤ toAngle v := by
  rcases le_or_lt u (-10) with c1 | c1
  · rcases le_or_lt v (-10) with d | d
    · rw [toAngle_seg1 hu c1, toAngle_seg1 (by linarith) d]; linarith
    · rw [toAngle_seg1 hu c1]; linarith [toAngle_ge_neg16 d hv]
  rcases le_or_lt u (-7) with c2 | c2
  · rcases le_or_lt v (-7) with d | d
    · rw [toAngle_seg2 c1 c2, toAngle_seg2 (by linarith) d]; linarith
    · rw [toAngle_seg2 c1 c2]; linarith [toAngle_ge_neg12 d hv]
  rcases le_or_lt u (-5) with c3 | c3
  · rcases le_or_lt v (-5) with d | d
    · rw [toAngle_seg3 c2 c3, toAngle_seg3 (by linarith) d]; linarith
    · rw [toAngle_seg3 c2 c3]; linarith [toAngle_ge_neg8 d hv]
  rcases le_or_lt u (-3) with c4 | c4
  · rcases le_or_lt v (-3) with d | d
    · rw [toAngle_seg4 c3 c4, toAngle_seg4 (by linarith) d]; linarith
    · rw [toAngle_seg4 c3 c4]; linarith [toAngle_ge_neg3 d hv]
  rcases le_or_lt u (-2) with c5 | c5
  · rcases le_or_lt v (-2) with d | d
    · rw [toAngle_seg5 c4 c5, toAngle_seg5 (by linarith) d]; linarith
    · rw [toAngle_seg5 c4 c5]; linarith [toAngle_ge_0 d hv]
  rcases le_or_lt u (-1) with c6 | c6
  · rcases le_or_lt v (-1) with d | d
    · rw [toAngle_seg6 c5 c6, toAngle_seg6 (by linarith) d]; linarith
    · have h35 := toAngle_ge_35 d hv
      rw [toAngle_seg6 c5 c6]; linarith
  rcases le_or_lt u 0 with c7 | c7
  · rcases le_or_lt v 0 with d | d
    · rw [toAngle_seg7 c6 c7, toAngle_seg7 (by linarith) d]; linarith
    · have h8 := toAngle_ge_8 d hv
      rw [toAngle_seg7 c6 c7]; linarith
  rcases le_or_lt u 1 with c8 | c8
  · rcases le_or_lt v 1 with d | d
    · rw [toAngle_seg8 c7 c8, toAngle_seg8 (by linarith) d]; linarith
    · rw [toAngle_seg8 c7 c8]; linarith [toAngle_ge_13 d hv]
  rcases le_or_lt u 2 with c9 | c9
  · rcases le_or_lt v 2 with d | d
    · rw [toAngle_seg9 c8 c9, toAngle_seg9 (by linarith) d]; linarith
    · rw [toAngle_seg9 c8 c9]; linarith [toAngle_ge_18 d hv]
  rw [toAngle_seg10 c9 (by linarith), toAngle_seg10 (by linarith) hv]; linarith

/-- The ladder is globally monotone (the upward jump from −25 toward −23
just above `vuValue = -20` does not break non-decreasingness). -/
lemma toAngle_monotone : Monotone toAngle := by
  intro u v huv
  rcases le_or_lt u (-20) with h1 | h1
  · rw [toAngle_floor h1]; exact (toAngle_bounds v).1
  rcases le_or_lt 3 v with h2 | h2
  · rw [toAngle_ceil h2]; exact (toAngle_bounds u).2
  exact toAngle_ladder_mono h1 huv h2

/-- Both branches of `process` apply the same exponential smoothing because
`attackTime = releaseTime = 0.3`. -/
lemma process_eq (level inputLevel deltaTime : ℝ) :
    VUBallistics.process level inputLevel deltaTime =
      level + (inputLevel - level) * (1 - Real.exp (-deltaTime / 0.3)) := by
  simp only [VUBallistics.process, VUBallistics.attackTime, VUBallistics.releaseTime]
  split_ifs <;> ring

/-- With `deltaTime = 0` the smoothing coefficient vanishes and `process`
returns its state unchanged. -/
lemma process_zero_delta (level inputLevel : ℝ) :
    VUBallistics.process level inputLevel 0 = level := by
  rw [process_eq]
  norm_num

/-- `process` keeps the normalized level inside the unit interval. -/
lemma process_mem_unit {level inputLevel deltaTime : ℝ}
    (hl0 : 0 ≤ level) (hl1 : level ≤ 1) (hi0 : 0 ≤ inputLevel) (hi1 : inputLevel ≤ 1)
    (hdt : 0 ≤ deltaTime) :
    0 ≤ VUBallistics.process level inputLevel deltaTime ∧
      VUBallistics.process level inputLevel deltaTime ≤ 1 := by
  rw [process_eq]
  have hexp1 : Real.exp (-deltaTime / 0.3) ≤ 1 := by
    rw [Real.exp_le_one_iff, div_nonpos_iff]
    right
    constructor <;> [linarith; norm_num]
  have hexp0 : 0 < Real.exp (-deltaTime / 0.3) := Real.exp_pos _
  set c := 1 - Real.exp (-deltaTime / 0.3) with hc
  have hc0 : 0 ≤ c := by rw [hc]; linarith
  have hc1 : c ≤ 1 := by rw [hc]; linarith
  constructor
  · nlinarith [mul_nonneg (by linarith : (0:ℝ) ≤ 1 - c) hl0, mul_nonneg hc0 hi0]
  · nlinarith [mul_le_of_le_one_right (by linarith : (0:ℝ) ≤ 1 - c) hl1,
      mul_le_of_le_one_right hc0 hi1]

/-- The computed peak intensity is always inside the unit interval when the
fade duration is positive. -/
lemma peakIntensity_mem (lastClipTimeMs : Option ℝ) (currentTime peakHoldMs : ℝ)
    {peakFadeMs : ℝ} (hfade : 0 < peakFadeMs) :
    0 ≤ peakIntensity lastClipTimeMs currentTime peakHoldMs peakFadeMs ∧
      peakIntensity lastClipTimeMs currentTime peakHoldMs peakFadeMs ≤ 1 := by
  cases lastClipTimeMs with
  | none => simp [peakIntensity]
  | some tc =>
    simp only [peakIntensity]
    split_ifs with h
    · norm_num
    · have hpos : 0 < currentTime - tc - peakHoldMs := by
        have := not_le.mp h
        linarith
      have hx : 0 ≤ (currentTime - tc - peakHoldMs) / peakFadeMs :=
        div_nonneg hpos.le hfade.le
      constructor
      · have hle : min 1 ((currentTime - tc - peakHoldMs) / peakFadeMs) ≤ 1 :=
          min_le_left _ _
        linarith
      · have hge : 0 ≤ min 1 ((currentTime - tc - peakHoldMs) / peakFadeMs) :=
          le_min (by norm_num) hx
        linarith

/-- The emitted peak intensity stays in the unit interval. -/
lemma emitPeak_mem {intensity : ℝ} (h0 : 0 ≤ intensity) (h1 : intensity ≤ 1) :
    0 ≤ (emitPeak intensity).2 ∧ (emitPeak intensity).2 ≤ 1 := by
  unfold emitPeak
  split_ifs <;> constructor <;> simp <;> assumption

/-! ### Claim theorems -/

/-- C1 counterexample: at exactly −20 VU the source takes the outer clamp
branch (`vuValue <= -20`), so the angle is −25, not the −23 the claim states. -/
theorem toAngle_neg20_eq_neg25_not_neg23 :
    toAngle (-20) = -25 ∧ ((-25 : ℝ) ≠ -23) :=
  ⟨toAngle_floor (by norm_num), by norm_num⟩

/-- C1 (amended): the calibration anchor values, with the clamp at -20 included:
toAngle(−20) = −25 (the outer clamp fires at exactly −20; −23 is only the
right-sided limit), toAngle(0) = 8, toAngle(3) = 25, toAngle(−25) = −25,
toAngle(10) = 25; at or below −20 VU the angle is clamped to −25°, and at or
above +3 VU it is clamped to +25°. -/
theorem toAngle_anchor_values_amended :
    toAngle (-20) = -25 ∧ toAngle 0 = 8 ∧ toAngle 3 = 25 ∧
      toAngle (-25) = -25 ∧ toAngle 10 = 25 ∧
      (∀ v : ℝ, v ≤ -20 → toAngle v = -25) ∧
      (∀ v : ℝ, 3 ≤ v → toAngle v = 25) := by
  refine ⟨toAngle_floor (by norm_num), ?_, toAngle_ceil (by norm_num),
    toAngle_floor (by norm_num), toAngle_ceil (by norm_num),
    fun v hv => toAngle_floor hv, fun v hv => toAngle_ceil hv⟩
  rw [toAngle_seg7 (by norm_num) (by norm_num)]
  norm_num

/-- C1 witness: the clamp clauses applied at concrete inputs. -/
theorem toAngle_anchor_values_amended_witness :
    toAngle (-30) = -25 ∧ toAngle 5 = 25 :=
  ⟨toAngle_anchor_values_amended.2.2.2.2.2.1 (-30) (by norm_num),
    toAngle_anchor_values_amended.2.2.2.2.2.2 5 (by norm_num)⟩

/-- C2: `toAngle` is monotonically non-decreasing in `vuValue` on [−25, +3]
and constant (clamped) outside that interval. -/
theorem toAngle_monotone_on_dial :
    (∀ u v : ℝ, -25 ≤ u → u ≤ v → v ≤ 3 → toAngle u ≤ toAngle v) ∧
      (∀ v : ℝ, v ≤ -25 → toAngle v = -25) ∧
      (∀ v : ℝ, 3 ≤ v → toAngle v = 25) :=
  ⟨fun _ _ _ huv _ => toAngle_monotone huv,
    fun _ hv => toAngle_floor (by linarith),
    fun _ hv => toAngle_ceil hv⟩

/-- C2 witness: monotonicity and the two clamp clauses at concrete inputs. -/
theorem toAngle_monotone_on_dial_witness :
    toAngle (-5) ≤ toAngle 0 ∧ toAngle (-40) = -25 ∧ toAngle 7 = 25 :=
  ⟨toAngle_monotone_on_dial.1 (-5) 0 (by norm_num) (by norm_num) (by norm_num),
    toAngle_monotone_on_dial.2.1 (-40) (by norm_num),
    toAngle_monotone_on_dial.2.2 7 (by norm_num)⟩

/-- C4: the +3.8 dB correction is added exactly when the channel mode is mono
and the source has 2 channels; in every other configuration the estimate is
the uncorrected dBFS value. -/
theorem monoCorrection_applies_iff :
    (∀ dataArray : List ℝ, estimate dataArray Channel.mono 2 = dbFS dataArray + 3.8) ∧
      (∀ (dataArray : List ℝ) (channel : Channel) (sourceChannels : ℕ),
        ¬(channel = Channel.mono ∧ sourceChannels = 2) →
          estimate dataArray channel sourceChannels = dbFS dataArray) := by
  constructor
  · intro w
    unfold estimate monoCorrection
    rw [if_pos ⟨rfl, rfl⟩]
  · intro w ch n h
    unfold estimate monoCorrection
    rw [if_neg h, add_zero]

/-- C4 witness: a non-mono configuration receives no correction. -/
theorem monoCorrection_applies_iff_witness :
    estimate [] Channel.left 2 = dbFS [] :=
  monoCorrection_applies_iff.2 [] Channel.left 2 (by decide)

/-- C5: `process` updates the level by the same exponential coefficient
`1 - exp(-deltaTime / 0.3)` in the attack and release branches, and a zero
`deltaTime` leaves the state (and returned value) unchanged. -/
theorem process_attack_release_formula :
    (∀ level inputLevel deltaTime : ℝ,
      VUBallistics.process level inputLevel deltaTime =
        level + (inputLevel - level) * (1 - Real.exp (-deltaTime / 0.3))) ∧
      (∀ level inputLevel : ℝ, VUBallistics.process level inputLevel 0 = level) :=
  ⟨process_eq, process_zero_delta⟩

/-- C7 counterexample: on the first tick `deltaTime` is 0, and `process` then
leaves the ballistics level at its initial value 0 even for input level 1 —
the state is not seeded from the tick's input level. -/
theorem first_tick_not_seeded_counterexample :
    tickDelta 0 16 = 0 ∧
      VUBallistics.process VUBallistics.initialLevel 1 (tickDelta 0 16) = 0 ∧
      VUBallistics.process VUBallistics.initialLevel 1 (tickDelta 0 16) ≠ 1 := by
  have hdelta : tickDelta 0 16 = 0 := by
    simp [tickDelta]
  have hproc : VUBallistics.process VUBallistics.initialLevel 1 (tickDelta 0 16) = 0 := by
    rw [hdelta, process_zero_delta, VUBallistics.initialLevel]
  exact ⟨hdelta, hproc, by rw [hproc]; norm_num⟩

/-- C7 (amended): on the first tick there is no valid previous timestamp and
the elapsed time is treated as deltaTime = 0; the smoothing coefficient is then
0, so the ballistics state is left unchanged at its initial value (0) rather
than seeded from that tick's input level. -/
theorem first_tick_delta_zero_level_unchanged :
    ∀ currentTime inputLevel : ℝ,
      tickDelta 0 currentTime = 0 ∧
        VUBallistics.process VUBallistics.initialLevel inputLevel (tickDelta 0 currentTime) =
          VUBallistics.initialLevel := by
  intro currentTime inputLevel
  have hdelta : tickDelta 0 currentTime = 0 := by
    simp [tickDelta]
  exact ⟨hdelta, by rw [hdelta, process_zero_delta]⟩

/-- The dBFS floor value: logb base 10 of the 1e-5 floor is exactly −5. -/
lemma logb_floor_value : Real.logb 10 (0.00001 : ℝ) = -5 := by
  have h : (0.00001 : ℝ) = ((10 : ℝ) ^ (5 : ℕ))⁻¹ := by norm_num
  rw [h, Real.logb_inv, Real.logb_pow, Real.logb_self_eq_one (by norm_num)]
  norm_num

/-- C3: for every non-empty sample window the level estimate (before channel
correction) equals `20 * log10(max(sqrt(mean(s^2)), 1e-5))`, is bounded below
by the −100 dBFS floor (hence finite), and equals exactly `20*log10(1e-5) = -100`
on uniform silence. -/
theorem dbFS_formula_and_floor (dataArray : List ℝ) (hne : dataArray ≠ []) :
    dbFS dataArray =
        20 * Real.logb 10
          (max (Real.sqrt ((dataArray.map fun s => s * s).sum / (dataArray.length : ℝ)))
            0.00001) ∧
      -100 ≤ dbFS dataArray ∧
      ((∀ s ∈ dataArray, s = 0) → dbFS dataArray = -100) := by
  refine ⟨rfl, ?_, ?_⟩
  · have hle : (0.00001 : ℝ) ≤ max (rms dataArray) 0.00001 := le_max_right _ _
    have hlogb : Real.logb 10 (0.00001 : ℝ) ≤ Real.logb 10 (max (rms dataArray) 0.00001) :=
      Real.logb_le_logb_of_le (by norm_num) (by norm_num) hle
    rw [logb_floor_value] at hlogb
    unfold dbFS
    linarith
  · intro hz
    have hsum : sumOfSquares dataArray = 0 := by
      unfold sumOfSquares
      apply List.sum_eq_zero
      intro x hx
      simp only [List.mem_map] at hx
      obtain ⟨s, hs, rfl⟩ := hx
      rw [hz s hs]
      ring
    have hrms : rms dataArray = 0 := by
      unfold rms
      rw [hsum, zero_div, Real.sqrt_zero]
    unfold dbFS
    rw [hrms, max_eq_right (by norm_num : (0 : ℝ) ≤ 0.00001), logb_floor_value]
    norm_num

/-- C3 witness: a one-sample silent window evaluates to the −100 dBFS floor. -/
theorem dbFS_formula_and_floor_witness :
    dbFS [0] = -100 ∧ -100 ≤ dbFS [0] :=
  ⟨(dbFS_formula_and_floor [0] (by simp)).2.2 (by intro s hs; simpa using hs),
    (dbFS_formula_and_floor [0] (by simp)).2.1⟩

/-- C6: peak-lamp intensity per tick — 0 while no clip was ever recorded, 1
during the hold period, the linear clamped fade afterwards; with the default
1000 ms hold and 5000 ms fade a single clip at t = 0 gives intensity 1 on
[0, 1000], strictly decreasing intensity on (1000, 6000], and an inactive lamp
once the intensity is at most 0.001. -/
theorem peakIntensity_spec :
    (∀ currentTime peakHoldMs peakFadeMs : ℝ,
      peakIntensity none currentTime peakHoldMs peakFadeMs = 0) ∧
      (∀ tc currentTime peakHoldMs peakFadeMs : ℝ, currentTime - tc ≤ peakHoldMs →
        peakIntensity (some tc) currentTime peakHoldMs peakFadeMs = 1) ∧
      (∀ tc currentTime peakHoldMs peakFadeMs : ℝ, 0 < peakFadeMs →
        peakHoldMs < currentTime - tc →
        peakIntensity (some tc) currentTime peakHoldMs peakFadeMs =
          1 - max 0 (min 1 ((currentTime - tc - peakHoldMs) / peakFadeMs))) ∧
      (∀ t : ℝ, 0 ≤ t → t ≤ 1000 → peakIntensity (some 0) t 1000 5000 = 1) ∧
      (∀ s t : ℝ, 1000 < s → s < t → t ≤ 6000 →
        peakIntensity (some 0) t 1000 5000 < peakIntensity (some 0) s 1000 5000) ∧
      (∀ intensity : ℝ, intensity ≤ 0.001 → (emitPeak intensity).1 = false) := by
  refine ⟨fun _ _ _ => rfl, ?_, ?_, ?_, ?_, ?_⟩
  · intro tc now hold fade h
    simp only [peakIntensity]
    rw [if_pos h]
  · intro tc now hold fade hfade h
    simp only [peakIntensity]
    rw [if_neg (not_le.mpr h)]
    have hx : 0 ≤ (now - tc - hold) / fade := div_nonneg (by linarith) hfade.le
    rw [max_eq_right (le_min (by norm_num) hx)]
  · intro t h0 h1
    simp only [peakIntensity]
    rw [if_pos (by linarith : t - 0 ≤ 1000)]
  · intro s t hs hst ht
    simp only [peakIntensity]
    rw [if_neg (by push_neg; linarith : ¬ t - 0 ≤ 1000),
      if_neg (by push_neg; linarith : ¬ s - 0 ≤ 1000)]
    rw [min_eq_right (by rw [div_le_one (by norm_num : (0:ℝ) < 5000)]; linarith),
      min_eq_right (by rw [div_le_one (by norm_num : (0:ℝ) < 5000)]; linarith)]
    have hdiv : (s - 0 - 1000) / 5000 < (t - 0 - 1000) / 5000 :=
      div_lt_div_of_pos_right (by linarith) (by norm_num)
    linarith
  · intro i h
    simp only [emitPeak]
    rw [if_pos h]

/-- C6 witness: concrete hold, fade and snap-off evaluations. -/
theorem peakIntensity_spec_witness :
    peakIntensity (some 0) 500 1000 5000 = 1 ∧
      peakIntensity (some 0) 3500 1000 5000 =
        1 - max 0 (min 1 ((3500 - 0 - 1000) / 5000)) ∧
      peakIntensity (some 0) 4000 1000 5000 < peakIntensity (some 0) 2000 1000 5000 ∧
      (emitPeak 0.0005).1 = false :=
  ⟨peakIntensity_spec.2.2.2.1 500 (by norm_num) (by norm_num),
    peakIntensity_spec.2.2.1 0 3500 1000 5000 (by norm_num) (by norm_num),
    peakIntensity_spec.2.2.2.2.1 2000 4000 (by norm_num) (by norm_num) (by norm_num),
    peakIntensity_spec.2.2.2.2.2 0.0005 (by norm_num)⟩

/-- C8: whenever the post-ballistics angle meets the clip threshold, the last
clip timestamp is overwritten with the current tick time, and the intensity
computed from the updated tracker at that same tick is 1 (hold period), so a
clip during a fade resets the lamp to full intensity immediately. -/
theorem clip_overwrite_and_retrigger :
    (∀ (angleDeg clipThresholdDeg currentTime : ℝ) (lastClipTimeMs : Option ℝ),
      clipThresholdDeg ≤ angleDeg →
        updateLastClip angleDeg clipThresholdDeg currentTime lastClipTimeMs =
          some currentTime) ∧
      (∀ (angleDeg clipThresholdDeg currentTime : ℝ) (lastClipTimeMs : Option ℝ)
        (peakHoldMs peakFadeMs : ℝ), clipThresholdDeg ≤ angleDeg → 0 ≤ peakHoldMs →
          peakIntensity (updateLastClip angleDeg clipThresholdDeg currentTime lastClipTimeMs)
            currentTime peakHoldMs peakFadeMs = 1) := by
  have hupd : ∀ (a th now : ℝ) (last : Option ℝ), th ≤ a →
      updateLastClip a th now last = some now := by
    intro a th now last h
    unfold updateLastClip
    rw [if_pos h]
  refine ⟨hupd, ?_⟩
  intro a th now last hold fade h hhold
  rw [hupd a th now last h]
  simp only [peakIntensity]
  rw [if_pos (by linarith : now - now ≤ hold)]

/-- C8 witness: a clip at 25° with threshold 23° during an earlier fade. -/
theorem clip_overwrite_and_retrigger_witness :
    updateLastClip 25 23 777 (some (-1)) = some 777 ∧
      peakIntensity (updateLastClip 25 23 777 (some (-1))) 777 1000 5000 = 1 :=
  ⟨clip_overwrite_and_retrigger.1 25 23 777 (some (-1)) (by norm_num),
    clip_overwrite_and_retrigger.2 25 23 777 (some (-1)) 1000 5000 (by norm_num)
      (by norm_num)⟩

/-- C9: per-tick output ranges — given a ballistics state in [0,1], any
`vuValue`, non-negative `deltaTime` and a positive fade duration, the smoothed
level stays in [0,1], the denormalized needle angle stays in [−25, 25], and the
emitted peak intensity stays in [0,1]. -/
theorem tick_output_ranges :
    ∀ (level vuValue deltaTime : ℝ) (lastClipTimeMs : Option ℝ)
      (currentTime peakHoldMs peakFadeMs : ℝ),
      0 ≤ level → level ≤ 1 → 0 ≤ deltaTime → 0 < peakFadeMs →
        (0 ≤ VUBallistics.process level (normalizedLevel (toAngle vuValue)) deltaTime ∧
          VUBallistics.process level (normalizedLevel (toAngle vuValue)) deltaTime ≤ 1) ∧
          (-25 ≤ directRotation
              (VUBallistics.process level (normalizedLevel (toAngle vuValue)) deltaTime) ∧
            directRotation
              (VUBallistics.process level (normalizedLevel (toAngle vuValue)) deltaTime) ≤ 25) ∧
          (0 ≤ (emitPeak (peakIntensity lastClipTimeMs currentTime peakHoldMs peakFadeMs)).2 ∧
            (emitPeak (peakIntensity lastClipTimeMs currentTime peakHoldMs peakFadeMs)).2 ≤ 1) := by
  intro level v dt lastClip now hold fade hl0 hl1 hdt hfade
  have hang := toAngle_bounds v
  have hi0 : 0 ≤ normalizedLevel (toAngle v) := by
    unfold normalizedLevel
    have : 0 ≤ toAngle v + 25 := by linarith [hang.1]
    positivity
  have hi1 : normalizedLevel (toAngle v) ≤ 1 := by
    unfold normalizedLevel
    rw [div_le_one (by norm_num : (0:ℝ) < 50)]
    linarith [hang.2]
  have hs := process_mem_unit hl0 hl1 hi0 hi1 hdt
  have hint := peakIntensity_mem lastClip now hold hfade
  have hemit := emitPeak_mem hint.1 hint.2
  refine ⟨hs, ⟨?_, ?_⟩, hemit⟩
  · unfold directRotation
    linarith [hs.1]
  · unfold directRotation
    linarith [hs.2]

/-- C9 witness: the range bounds at a concrete tick. -/
theorem tick_output_ranges_witness :
    -25 ≤ directRotation (VUBallistics.process 0 (normalizedLevel (toAngle 0)) 0) ∧
      (emitPeak (peakIntensity none 0 1000 5000)).2 ≤ 1 :=
  ⟨(tick_output_ranges 0 0 0 none 0 1000 5000 (by norm_num) (by norm_num) (by norm_num)
      (by norm_num)).2.1.1,
    (tick_output_ranges 0 0 0 none 0 1000 5000 (by norm_num) (by norm_num) (by norm_num)
      (by norm_num)).2.2.2⟩

/-- C10: the emitted pair is consistent — the active flag is true exactly when
the computed intensity exceeds 0.001; a false flag comes with an emitted
intensity of exactly 0; and the emitted intensity never lies in (0, 0.001]. -/
theorem emitPeak_consistency :
    ∀ intensity : ℝ,
      ((emitPeak intensity).1 = true ↔ 0.001 < intensity) ∧
        ((emitPeak intensity).1 = false → (emitPeak intensity).2 = 0) ∧
        ¬(0 < (emitPeak intensity).2 ∧ (emitPeak intensity).2 ≤ 0.001) := by
  intro i
  unfold emitPeak
  split_ifs with h
  · refine ⟨⟨fun hc => absurd hc (by simp), fun hc => absurd h (not_le.mpr hc)⟩,
      fun _ => rfl, ?_⟩
    rintro ⟨h0, _⟩
    exact lt_irrefl 0 h0
  · refine ⟨⟨fun _ => not_le.mp h, fun _ => rfl⟩, fun hc => absurd hc (by simp), ?_⟩
    rintro ⟨_, hle⟩
    exact h hle

/-- C10 witness: a sub-threshold intensity is emitted as exactly 0. -/
theorem emitPeak_consistency_witness : (emitPeak 0.0005).2 = 0 :=
  (emitPeak_consistency 0.0005).2.1 (by norm_num [emitPeak])

end VUMeterReact
